import Mathlib

/-!
# Verification development for the AichiProgrammingContest2026 print-scanning system

Shallow embedding of the parts of the repository the claims are about:

* the client-side handlers of `frontend/src/components/CameraView.tsx`
  (server-sent-event status handler, stream-error retry loop, stream URL),
* the capture HUD of `frontend/src/components/CaptureHud.tsx`,
* the OCR-overlay normalisation of `frontend/src/components/ImageOverlay.tsx`,
* the settings dialog's `addMapping` of the unnamed SettingsDialog component,
* and, modelled from the specification (the backend Python sources are not
  part of the provided source tree), the StabilityTracker state machine, the
  ClassificationResolver and the CaptureStore/mapping registration.

JavaScript numbers are modelled as rationals (`ℚ`), JSON values as an
inductive `Json` type, and JavaScript truthiness explicitly.
-/

/-- A JSON value as produced by `JSON.parse` on the client, restricted to the
well-formed shapes the components consume.  Numbers are modelled as rationals. -/
inductive Json where
  | null
  | bool (b : Bool)
  | num (q : ℚ)
  | str (s : String)
  | arr (elems : List Json)
  | obj (fields : List (String × Json))

/-- JavaScript truthiness of a value (`!!v`); an absent field (`undefined`)
is handled by the `Option` wrappers below. -/
def Json.truthy : Json → Bool
  | .null => false
  | .bool b => b
  | .num q => decide (q ≠ 0)
  | .str s => decide (s ≠ "")
  | .arr _ => true
  | .obj _ => true

/-- Property access `v.k`: `some` on an object that has the field, `none`
(JavaScript `undefined`) otherwise. -/
def Json.getField : Json → String → Option Json
  | .obj fs, k => fs.lookup k
  | _, _ => none

/-- JavaScript `x || d` where `x` may be an absent field: the value itself if
present and truthy, the default otherwise. -/
def jsOrDefault (v : Option Json) (d : Json) : Json :=
  match v with
  | some j => if j.truthy then j else d
  | none => d

/-- JavaScript `!!x` where `x` may be an absent field. -/
def jsTruthy (v : Option Json) : Bool :=
  match v with
  | some j => j.truthy
  | none => false

/-- JavaScript `x || dflt` specialised to string-valued fields (the fallback
chains `block.content || block.text || ""` of ImageOverlay). -/
def jsStringOr (v : Option Json) (dflt : String) : String :=
  match v with
  | some (.str s) => if s = "" then dflt else s
  | _ => dflt

/-! ## CameraView: capture-status event handler (`connectSSE.onmessage`)

From `CameraView.tsx` lines 34–42:

```
eventSource.onmessage = (event) => {
    try {
        const data = JSON.parse(event.data);
        setCaptureProgress(data.progress || 0);
        setCaptureTriggered(!!data.triggered);
    } catch (e) {
        // ignore parse error
    }
};
```
-/

/-- The client state the status handler updates: displayed progress value and
triggered flag. -/
structure CaptureStatusState where
  captureProgress : Json
  captureTriggered : Bool

/-- One `onmessage` invocation.  The argument is `JSON.parse event.data`:
`none` when parsing threw (the catch block ignores the line), `some data`
otherwise.  A parsed `null` is the one JSON value on which the property
access `data.progress` itself throws a TypeError; it is raised inside the
`try`, swallowed by the same `catch`, and the displayed state is left
unchanged.  On every other parsed value property access yields the field
(or `undefined` on non-objects), never a throw. -/
def onStatusMessage (st : CaptureStatusState) (data : Option Json) : CaptureStatusState :=
  match data with
  | none => st
  | some .null => st
  | some d =>
      { captureProgress := jsOrDefault (d.getField "progress") (.num 0)
        captureTriggered := jsTruthy (d.getField "triggered") }

/-! ## CaptureHud (`CaptureHud.tsx`)

```
if (progress <= 0 && !triggered) return null;
const r = 40;
const c = 2 * Math.PI * r;
const offset = c - (progress * c);
```

`Math.PI` is a floating-point constant; the circumference `c` is kept as a
parameter of the model so the geometry stays exact over `ℚ`. -/

/-- The rendered HUD as far as the claims are concerned: the dash offset of
the progress circle and the triggered styling flag. -/
structure HudView where
  dashOffset : ℚ
  triggered : Bool
deriving DecidableEq, Repr

/-- `CaptureHud` component body: `none` models `return null`; `c` is the
circle circumference `2 * Math.PI * 40`. -/
def captureHud (c : ℚ) (progress : ℚ) (triggered : Bool) : Option HudView :=
  if progress ≤ 0 ∧ triggered = false then none
  else some { dashOffset := c - progress * c, triggered := triggered }

/-! ## CameraView: stream-error retry loop

From `CameraView.tsx` lines 62–87:

```
const refreshStream = useCallback(() => {
    setIsStreamLoading(true);
    setErrorCount(0);
    setStreamKey(Date.now());
}, []);
const handleStreamLoad = () => { setIsStreamLoading(false); setErrorCount(0); };
const handleStreamError = () => {
    setIsStreamLoading(false);
    if (errorCount < 5) {
        setErrorCount(prev => prev + 1);
        setTimeout(refreshStream, 2000);
    }
};
```
-/

/-- `handleStreamError`: returns the new `errorCount` and whether a retry
(`setTimeout(refreshStream, 2000)`) was scheduled. -/
def handleStreamError (errorCount : ℕ) : ℕ × Bool :=
  if errorCount < 5 then (errorCount + 1, true) else (errorCount, false)

/-- `refreshStream`: resets the error count to 0 (and remounts the `img`). -/
def refreshStream (_errorCount : ℕ) : ℕ := 0

/-- `handleStreamLoad`: a successful load resets the error count to 0. -/
def handleStreamLoad (_errorCount : ℕ) : ℕ := 0

/-- One failure cycle of the automatic retry loop: the `img` element fires
`onerror`, and, if a retry was scheduled, the 2-second timer then runs
`refreshStream` before the remounted element can fail again.  Returns the
error count after the cycle and whether a retry was scheduled. -/
def failureCycle (errorCount : ℕ) : ℕ × Bool :=
  let r := handleStreamError errorCount
  (if r.2 then refreshStream r.1 else r.1, r.2)

/-- Error count after `n` consecutive failure cycles. -/
def errorCountAfter : ℕ → ℕ → ℕ
  | c, 0 => c
  | c, n + 1 => errorCountAfter (failureCycle c).1 n

/-- Number of automatic retries scheduled over `n` consecutive failure
cycles starting from error count `c`. -/
def retriesScheduled : ℕ → ℕ → ℕ
  | _, 0 => 0
  | c, n + 1 => (if (failureCycle c).2 then 1 else 0) + retriesScheduled (failureCycle c).1 n

/-- The offline banner is shown when `errorCount >= 5` (`CameraView.tsx`
line 130). -/
def offlineShown (errorCount : ℕ) : Bool := decide (5 ≤ errorCount)

/-! ## Stream endpoint and its cache-busting token

The backend serving `GET /api/stream` is not part of the provided source
tree.  Modelled from the spec: "Continuous frame stream endpoint:
consumer-driven binary/image stream; callers may append an opaque
cache-busting token to force a reconnect, which the server ignores
semantically." -/

/-- Modelled from the spec: the state of the frame source, as the sequence of
frames (opaque byte lists) it will serve. -/
structure FrameSourceState where
  frames : List (List ℕ)
deriving DecidableEq, Repr

/-- Modelled from the spec: the stream endpoint's response.  The query
string (including any `t=<timestamp>` cache-busting token) is received but
ignored semantically: the response depends only on the frame source state. -/
def streamEndpoint (src : FrameSourceState) (_query : List (String × String)) :
    List (List ℕ) :=
  src.frames

/-- The client's stream URL (`CameraView.tsx` line 120):
`${API_BASE}/stream?t=${streamKey}`; the query it denotes. -/
def clientStreamQuery (streamKey : ℕ) : List (String × String) :=
  [("t", toString streamKey)]

/-! ## ClassificationResolver and CaptureStore

The backend classifier and store are not part of the provided source tree.
Modelled from the spec: "Pure function: `subject = mapping.get(detectedId,
"Unclassified")`"; CaptureRecord "Created once per trigger by CaptureStore;
immutable thereafter"; SubjectMapping an external markerId → subjectName
store that registration upserts into. -/

/-- Modelled from the spec: resolve a detected marker id against the
markerId → subjectName mapping, `mapping.get(detectedId, "Unclassified")`. -/
def resolveSubject (mapping : List (ℕ × String)) (detectedId : ℕ) : String :=
  (mapping.lookup detectedId).getD "Unclassified"

/-- Modelled from the spec: the metadata record persisted once per trigger. -/
structure CaptureRecord where
  filename : String
  filepathOriginal : String
  filepathCorrected : String
  createdAt : ℚ
  subject : String
  detectedId : Option ℕ
  geometricCorrectionApplied : Bool
  colorCorrectionApplied : Bool
deriving DecidableEq, Repr

/-- Modelled from the spec: the persistent state the claims range over — the
externally-owned subject mapping and the list of persisted capture records. -/
structure SystemState where
  mapping : List (ℕ × String)
  records : List CaptureRecord
deriving DecidableEq, Repr

/-- Modelled from the spec: persisting one capture — the record's subject is
resolved from the mapping at store time, and the record is appended. -/
def storeCapture (st : SystemState) (filename orig corr : String) (createdAt : ℚ)
    (detectedId : Option ℕ) (geo color : Bool) : SystemState :=
  { st with
    records := st.records ++
      [{ filename := filename, filepathOriginal := orig, filepathCorrected := corr
         createdAt := createdAt
         subject := match detectedId with
           | some i => resolveSubject st.mapping i
           | none => "Unclassified"
         detectedId := detectedId
         geometricCorrectionApplied := geo, colorCorrectionApplied := color }] }

/-- Modelled from the spec: registering (upserting) a markerId → subject
mapping in the settings store.  Only the mapping is touched; stored capture
records are not rewritten. -/
def registerMapping (st : SystemState) (id : ℕ) (subject : String) : SystemState :=
  { st with mapping := (id, subject) :: st.mapping.filter (fun kv => kv.1 ≠ id) }

/-! ## ImageOverlay (`ImageOverlay.tsx`)

`renderOverlays` first normalises `ocrData` to a list of blocks (bare array,
or the `blocks` / `words` / `results` wrapper), then parses each block by a
shape heuristic (points polygon, `[[x1,y1,x2,y2], text, conf]` tuple, or
`{box, text}`), drops zero-sized boxes, and scales to percentages of the
image size.  Only well-formed numeric contents are modelled; shapes that
would produce `NaN` coordinates in JavaScript are outside the model. -/

/-- The natural size of the loaded image (`imgSize`). -/
structure ImgSize where
  w : ℚ
  h : ℚ
deriving DecidableEq, Repr

/-- The pixel-space box a block parses to (`x`, `y`, `w`, `h`, `text` of
`renderOverlays`). -/
structure RawBox where
  x : ℚ
  y : ℚ
  w : ℚ
  h : ℚ
  text : String
deriving DecidableEq, Repr

/-- One rendered overlay `div`: position and size as percentages of the
image, plus the text attached to it. -/
structure OverlayBox where
  left : ℚ
  top : ℚ
  width : ℚ
  height : ℚ
  text : String
deriving DecidableEq, Repr

/-- A polygon vertex `[x, y]` (element of `block.points`). -/
def Json.asPoint : Json → Option (ℚ × ℚ)
  | .arr (.num x :: .num y :: _) => some (x, y)
  | _ => none

/-- All vertices of `block.points`; `none` when any element is not a
well-formed vertex. -/
def asPoints : List Json → Option (List (ℚ × ℚ))
  | [] => some []
  | j :: js =>
      match j.asPoint, asPoints js with
      | some p, some ps => some (p :: ps)
      | _, _ => none

/-- `Math.min(...x :: xs)` / `Math.max(...)` over a non-empty spread. -/
def listMin (x : ℚ) (xs : List ℚ) : ℚ := xs.foldl min x

/-- See `listMin`. -/
def listMax (x : ℚ) (xs : List ℚ) : ℚ := xs.foldl max x

/-- The shape heuristic of `renderOverlays` (lines 64–97), before the
zero-size filter.  `none` models the unmatched case that keeps
`x = y = w = h = 0` (always filtered right after). -/
def detectBox (block : Json) : Option RawBox :=
  match block.getField "points" with
  | some (.arr ps) =>
      -- Format 1: polygon points; bounding box of the vertices.
      match asPoints ps with
      | some (p :: rest) =>
          let xMin := listMin p.1 (rest.map Prod.fst)
          let xMax := listMax p.1 (rest.map Prod.fst)
          let yMin := listMin p.2 (rest.map Prod.snd)
          let yMax := listMax p.2 (rest.map Prod.snd)
          some { x := xMin, y := yMin, w := xMax - xMin, h := yMax - yMin
                 text := jsStringOr (block.getField "content")
                   (jsStringOr (block.getField "text") "") }
      | _ => none
  | _ =>
    match block with
    -- Format 2: [ [x1, y1, x2, y2], "text", conf ]
    | .arr (.arr (.num x1 :: .num y1 :: .num x2 :: .num y2 :: _) :: t :: _) =>
        some { x := x1, y := y1, w := x2 - x1, h := y2 - y1
               text := match t with | .str s => s | _ => "" }
    | _ =>
      match block.getField "box" with
      -- Format 3: { box: [x, y, w, h], text: "" }
      | some (.arr (.num x :: .num y :: .num w :: .num h :: _)) =>
          some { x := x, y := y, w := w, h := h
                 text := jsStringOr (block.getField "text")
                   (jsStringOr (block.getField "content") "") }
      | _ => none

/-- Parse one block: shape heuristic followed by the
`if (w === 0 || h === 0) return null` filter. -/
def parseBlock (block : Json) : Option RawBox :=
  match detectBox block with
  | some b => if b.w = 0 ∨ b.h = 0 then none else some b
  | none => none

/-- Normalisation of `ocrData` to a list of blocks (lines 47–58): a bare
array is used as is, otherwise the first of the `blocks` / `words` /
`results` fields that holds an array. -/
def extractBlocks (ocrData : Json) : List Json :=
  match ocrData with
  | .arr xs => xs
  | _ =>
    match ocrData.getField "blocks" with
    | some (.arr xs) => xs
    | _ =>
      match ocrData.getField "words" with
      | some (.arr xs) => xs
      | _ =>
        match ocrData.getField "results" with
        | some (.arr xs) => xs
        | _ => []

/-- Percentage scaling of a parsed box (lines 101–105). -/
def scaleBox (sz : ImgSize) (b : RawBox) : OverlayBox :=
  { left := b.x / sz.w * 100, top := b.y / sz.h * 100
    width := b.w / sz.w * 100, height := b.h / sz.h * 100, text := b.text }

/-- `renderOverlays`: the list of overlay boxes actually rendered.
`imgSize = none` and falsy `ocrData` render nothing (line 44); unparsed
blocks render nothing (`return null`). -/
def renderOverlays (imgSize : Option ImgSize) (ocrData : Json) : List OverlayBox :=
  match imgSize with
  | none => []
  | some sz =>
      if ocrData.truthy = false then []
      else (extractBlocks ocrData).filterMap (fun b => (parseBlock b).map (scaleBox sz))

/-- The `{box, text}` block equivalent to a points polygon: the polygon's
axis-aligned bounding box `[xMin, yMin, xMax - xMin, yMax - yMin]`. -/
def boxBlockOfPoints (p : ℚ × ℚ) (rest : List (ℚ × ℚ)) (t : String) : Json :=
  .obj [("box", .arr
      [ .num (listMin p.1 (rest.map Prod.fst))
      , .num (listMin p.2 (rest.map Prod.snd))
      , .num (listMax p.1 (rest.map Prod.fst) - listMin p.1 (rest.map Prod.fst))
      , .num (listMax p.2 (rest.map Prod.snd) - listMin p.2 (rest.map Prod.snd))]),
    ("text", .str t)]

/-- A points-polygon block with a `text` field. -/
def pointsBlock (p : ℚ × ℚ) (rest : List (ℚ × ℚ)) (t : String) : Json :=
  .obj [("points", .arr ((p :: rest).map (fun q => .arr [.num q.1, .num q.2]))),
    ("text", .str t)]

/-! ## SettingsDialog: `addMapping`

From the unnamed SettingsDialog component (lines 47–61):

```
const updateMapping = (id, subject) => { setMappings(prev => ({ ...prev, [id]: subject })); };
const addMapping = () => {
    const nextId = Math.max(0, ...Object.keys(mappings).map(k => parseInt(k) || 0)) + 1;
    updateMapping(String(nextId), "New Subject");
};
```

The mappings object is modelled as an association list in key order;
`parseInt` is modelled on its decimal core (a leading run of digits). -/

/-- Numeric value of a decimal digit character. -/
def digitVal (c : Char) : ℕ := c.toNat - 48

/-- Decimal core of JavaScript `parseInt`: the value of the longest leading
run of digits, `none` (`NaN`) when there is none. -/
def parseIntNat (s : String) : Option ℕ :=
  let ds := s.toList.takeWhile Char.isDigit
  if ds.isEmpty then none
  else some (ds.foldl (fun acc c => 10 * acc + digitVal c) 0)

/-- `parseInt(k) || 0`: `NaN` (and the falsy value `0` itself) becomes 0. -/
def jsParseIntOr0 (s : String) : ℕ := (parseIntNat s).getD 0

/-- JavaScript `String(n)` for a natural number: decimal representation. -/
def natRepr (n : ℕ) : String :=
  if n = 0 then "0" else ((Nat.digits 10 n).reverse.map Nat.digitChar).asString

/-- `nextId`: `Math.max(0, ...Object.keys(mappings).map(k => parseInt(k) || 0)) + 1`. -/
def nextIdOf (mappings : List (String × String)) : ℕ :=
  (mappings.map (fun kv => jsParseIntOr0 kv.1)).foldl max 0 + 1

/-- `updateMapping`: the object spread `{ ...prev, [id]: subject }` — an
existing key is overwritten in place, a fresh key is appended. -/
def updateMapping (mappings : List (String × String)) (id subject : String) :
    List (String × String) :=
  if mappings.any (fun kv => kv.1 = id)
  then mappings.map (fun kv => if kv.1 = id then (id, subject) else kv)
  else mappings ++ [(id, subject)]

/-- `addMapping`. -/
def addMapping (mappings : List (String × String)) : List (String × String) :=
  updateMapping mappings (natRepr (nextIdOf mappings)) "New Subject"

/-! ## StabilityTracker

The backend tracker is not part of the provided source tree.  Modelled from
the spec (§4.2): states `IDLE`, `TRACKING(markerId)`, `COOLDOWN`; per-frame
transition on the selected detection and the wall-clock time `now`;
duration-based progress `min(1, (now - startedAt) / requiredStableDuration)`;
a single trigger when progress reaches 1, then a fixed cool-down interval
before returning to `IDLE`. -/

/-- A per-frame marker detection (spec §3): id, ordered corner quad and
confidence.  The tracker only consults `id` and `confidence`. -/
structure MarkerDetection where
  id : ℕ
  corners : List (ℚ × ℚ)
  confidence : ℚ
deriving DecidableEq, Repr

/-- Modelled from the spec: "If two different ids are detected in the same
frame, pick the highest-confidence detection; break ties by lowest id for
determinism." -/
def pickDetection (dets : List MarkerDetection) : Option MarkerDetection :=
  dets.foldl
    (fun best d =>
      match best with
      | none => some d
      | some b =>
          if b.confidence < d.confidence ∨ (d.confidence = b.confidence ∧ d.id < b.id)
          then some d else some b)
    none

/-- Tracker configuration: required stable duration, grace limit `G`
(default 3 frames) and cool-down interval (default 2 s). -/
structure TrackerConfig where
  requiredStableDuration : ℚ
  graceLimit : ℕ := 3
  cooldownInterval : ℚ := 2
deriving DecidableEq, Repr

/-- The tracker's control state: `idle`, `tracking markerId`, or `cooldown`
until the stored end time. -/
inductive TrackerPhase where
  | idle
  | tracking (markerId : ℕ)
  | cooldown (endTime : ℚ)
deriving DecidableEq, Repr

/-- `StreakState` (spec §3), with the phase carrying `markerId` /
the cool-down deadline. -/
structure TrackerState where
  phase : TrackerPhase
  progress : ℚ
  missedCount : ℕ
  startedAt : ℚ
deriving DecidableEq, Repr

/-- The empty streak state (`IDLE`). -/
def TrackerState.init : TrackerState :=
  { phase := .idle, progress := 0, missedCount := 0, startedAt := 0 }

/-- The per-frame published output `(progress, triggered, markerId)`. -/
structure TrackerOutput where
  progress : ℚ
  triggered : Bool
  markerId : Option ℕ
deriving DecidableEq, Repr

/-- `min(1, elapsed / requiredStableDuration)`. -/
def clampProgress (cfg : TrackerConfig) (elapsed : ℚ) : ℚ :=
  min 1 (elapsed / cfg.requiredStableDuration)

/-- Modelled from the spec: frame processing when no streak is active
(`IDLE`, also entered on cool-down expiry): a selected detection starts
`TRACKING` with `missedCount = 0` and `startedAt = now`. -/
def trackerIdleStep (dets : List MarkerDetection) (now : ℚ) :
    TrackerState × TrackerOutput :=
  match pickDetection dets with
  | none => (TrackerState.init, { progress := 0, triggered := false, markerId := none })
  | some d =>
      ({ phase := .tracking d.id, progress := 0, missedCount := 0, startedAt := now },
       { progress := 0, triggered := false, markerId := some d.id })

/-- Modelled from the spec: a frame with no detection while tracking —
increment `missedCount`; within the grace limit the progress is held,
beyond it the streak breaks to `IDLE` with progress 0. -/
def trackerMissStep (cfg : TrackerConfig) (s : TrackerState) (m : ℕ) :
    TrackerState × TrackerOutput :=
  if s.missedCount + 1 ≤ cfg.graceLimit then
    ({ s with missedCount := s.missedCount + 1 },
     { progress := s.progress, triggered := false, markerId := some m })
  else
    (TrackerState.init, { progress := 0, triggered := false, markerId := none })

/-- Modelled from the spec: the per-frame transition of the
StabilityTracker given the frame's detections and the wall-clock time
`now`, producing the next state and the published output. -/
def trackerStep (cfg : TrackerConfig) (s : TrackerState)
    (dets : List MarkerDetection) (now : ℚ) : TrackerState × TrackerOutput :=
  match s.phase with
  | .cooldown endTime =>
      if now < endTime then
        -- still cooling down: suppress everything
        (s, { progress := 0, triggered := false, markerId := none })
      else
        -- cool-down expired: return to IDLE and process this frame afresh
        trackerIdleStep dets now
  | .idle => trackerIdleStep dets now
  | .tracking m =>
      match pickDetection dets with
      | none => trackerMissStep cfg s m
      | some d =>
          if d.id = m then
            let p := clampProgress cfg (now - s.startedAt)
            if 1 ≤ p then
              -- progress reached 1 for the first time in this streak: trigger
              ({ phase := .cooldown (now + cfg.cooldownInterval), progress := 0,
                 missedCount := 0, startedAt := s.startedAt },
               { progress := 1, triggered := true, markerId := some m })
            else
              ({ phase := .tracking m, progress := p, missedCount := 0,
                 startedAt := s.startedAt },
               { progress := p, triggered := false, markerId := some m })
          else
            -- detection of a different id: restart the streak on it
            ({ phase := .tracking d.id, progress := 0, missedCount := 0, startedAt := now },
             { progress := 0, triggered := false, markerId := some d.id })

/-- One frame of input to the tracker: the detections and the frame time. -/
structure FrameInput where
  dets : List MarkerDetection
  now : ℚ
deriving DecidableEq, Repr

/-- The tracker state after a sequence of frames. -/
def trackerExec (cfg : TrackerConfig) : TrackerState → List FrameInput → TrackerState
  | s, [] => s
  | s, f :: fs => trackerExec cfg (trackerStep cfg s f.dets f.now).1 fs

/-- The per-frame (state, output) trace over a sequence of frames. -/
def trackerRun (cfg : TrackerConfig) :
    TrackerState → List FrameInput → List (TrackerState × TrackerOutput)
  | _, [] => []
  | s, f :: fs =>
      trackerStep cfg s f.dets f.now :: trackerRun cfg (trackerStep cfg s f.dets f.now).1 fs

/-- Frame `k`'s detections (out-of-range frames read as empty). -/
def frameDets (xs : List FrameInput) (k : ℕ) : List MarkerDetection :=
  (xs.getD k { dets := [], now := 0 }).dets

/-- Frame `k`'s wall-clock time (out-of-range frames read as time 0). -/
def frameTime (xs : List FrameInput) (k : ℕ) : ℚ :=
  (xs.getD k { dets := [], now := 0 }).now

/-- The tracker state just before frame `k` is processed, starting from the
initial `IDLE` state. -/
def stateBefore (cfg : TrackerConfig) (xs : List FrameInput) (k : ℕ) : TrackerState :=
  trackerExec cfg TrackerState.init (xs.take k)

/-- The output published for frame `k`, starting from the initial state. -/
def runOut (cfg : TrackerConfig) (xs : List FrameInput) (k : ℕ) : TrackerOutput :=
  ((trackerRun cfg TrackerState.init xs).getD k
    (TrackerState.init, { progress := 0, triggered := false, markerId := none })).2

lemma trackerExec_append (cfg : TrackerConfig) (xs ys : List FrameInput) :
    ∀ s, trackerExec cfg s (xs ++ ys) = trackerExec cfg (trackerExec cfg s xs) ys := by
  induction xs with
  | nil => intro s; rfl
  | cons f fs ih => intro s; exact ih (trackerStep cfg s f.dets f.now).1

lemma trackerRun_getD_eq (cfg : TrackerConfig) (d : TrackerState × TrackerOutput) :
    ∀ (xs : List FrameInput) (s : TrackerState) (k : ℕ), k < xs.length →
      (trackerRun cfg s xs).getD k d =
        trackerStep cfg (trackerExec cfg s (xs.take k))
          (xs.getD k { dets := [], now := 0 }).dets
          (xs.getD k { dets := [], now := 0 }).now := by
  intro xs
  induction xs with
  | nil => intro s k h; simp at h
  | cons f fs ih =>
    intro s k h
    cases k with
    | zero => simp [trackerRun, trackerExec]
    | succ k =>
        have hk : k < fs.length := by simpa using h
        simpa [trackerRun, trackerExec] using ih (trackerStep cfg s f.dets f.now).1 k hk

lemma stateBefore_succ (cfg : TrackerConfig) (xs : List FrameInput) (k : ℕ)
    (hk : k < xs.length) :
    stateBefore cfg xs (k + 1) =
      (trackerStep cfg (stateBefore cfg xs k) (frameDets xs k) (frameTime xs k)).1 := by
  unfold stateBefore frameDets frameTime
  rw [List.take_succ, List.getElem?_eq_getElem hk, trackerExec_append]
  simp [trackerExec, List.getD, List.getElem?_eq_getElem hk]

lemma runOut_eq (cfg : TrackerConfig) (xs : List FrameInput) (k : ℕ) (hk : k < xs.length) :
    runOut cfg xs k =
      (trackerStep cfg (stateBefore cfg xs k) (frameDets xs k) (frameTime xs k)).2 := by
  unfold runOut stateBefore frameDets frameTime
  rw [trackerRun_getD_eq cfg _ xs TrackerState.init k hk]

lemma trackerStep_cooldown_lt (cfg : TrackerConfig) (s : TrackerState)
    (dets : List MarkerDetection) (now e : ℚ) (hp : s.phase = .cooldown e) (h : now < e) :
    trackerStep cfg s dets now =
      (s, { progress := 0, triggered := false, markerId := none }) := by
  obtain ⟨ph, pr, mc, sa⟩ := s
  cases ph with
  | idle => simp at hp
  | tracking m => simp at hp
  | cooldown e2 =>
      obtain rfl : e2 = e := by simpa using hp
      simp [trackerStep, h]

lemma trackerExec_cooldown (cfg : TrackerConfig) (e : ℚ) :
    ∀ (xs : List FrameInput) (s : TrackerState), s.phase = .cooldown e →
      (∀ f ∈ xs, f.now < e) → trackerExec cfg s xs = s := by
  intro xs
  induction xs with
  | nil => intro s _ _; rfl
  | cons f fs ih =>
      intro s hp hb
      show trackerExec cfg (trackerStep cfg s f.dets f.now).1 fs = s
      rw [trackerStep_cooldown_lt cfg s f.dets f.now e hp (hb f (by simp))]
      exact ih s hp (fun g hg => hb g (by simp [hg]))

lemma trackerIdleStep_not_triggered (dets : List MarkerDetection) (now : ℚ) :
    (trackerIdleStep dets now).2.triggered = false := by
  unfold trackerIdleStep
  cases pickDetection dets <;> simp

lemma trackerMissStep_not_triggered (cfg : TrackerConfig) (s : TrackerState) (m : ℕ) :
    (trackerMissStep cfg s m).2.triggered = false := by
  unfold trackerMissStep
  split <;> simp

lemma trackerStep_triggered (cfg : TrackerConfig) (s : TrackerState)
    (dets : List MarkerDetection) (now : ℚ)
    (h : (trackerStep cfg s dets now).2.triggered = true) :
    (trackerStep cfg s dets now).1.phase = .cooldown (now + cfg.cooldownInterval) := by
  obtain ⟨ph, pr, mc, sa⟩ := s
  cases ph with
  | idle =>
      rw [show trackerStep cfg ⟨.idle, pr, mc, sa⟩ dets now = trackerIdleStep dets now from rfl]
        at h
      rw [trackerIdleStep_not_triggered] at h
      exact absurd h (by simp)
  | cooldown e2 =>
      by_cases hlt : now < e2
      · rw [trackerStep_cooldown_lt cfg _ dets now e2 rfl hlt] at h
        simp at h
      · rw [show trackerStep cfg ⟨.cooldown e2, pr, mc, sa⟩ dets now
            = if now < e2 then (⟨.cooldown e2, pr, mc, sa⟩,
                { progress := 0, triggered := false, markerId := none })
              else trackerIdleStep dets now from rfl, if_neg hlt] at h
        rw [trackerIdleStep_not_triggered] at h
        exact absurd h (by simp)
  | tracking m =>
      simp only [trackerStep] at h ⊢
      cases hpd : pickDetection dets with
      | none =>
          rw [hpd] at h
          simp only [trackerMissStep_not_triggered] at h
          exact absurd h (by simp)
      | some dd =>
          rw [hpd] at h
          by_cases hid : dd.id = m
          · by_cases htr : 1 ≤ clampProgress cfg (now - sa)
            · simp [hid, htr]
            · simp [hid, htr] at h
          · simp [hid] at h

lemma frameTime_eq_get (xs : List FrameInput) (k : ℕ) (hk : k < xs.length) :
    frameTime xs k = (xs.get ⟨k, hk⟩).now := by
  unfold frameTime
  rw [List.getD_eq_getElem _ _ hk]
  rfl

lemma now_le_get_of_mem_take (xs : List FrameInput)
    (hmono : xs.Pairwise (fun a b => a.now ≤ b.now)) (j : ℕ) (hj : j < xs.length) :
    ∀ f ∈ xs.take j, f.now ≤ (xs.get ⟨j, hj⟩).now := by
  intro f hf
  have hp : (xs.take j ++ xs.drop j).Pairwise (fun a b => a.now ≤ b.now) := by
    rw [List.take_append_drop]; exact hmono
  have hmem : xs.get ⟨j, hj⟩ ∈ xs.drop j := by
    rw [List.drop_eq_getElem_cons hj]
    exact List.mem_cons_self _ _
  exact (List.pairwise_append.mp hp).2.2 f hf _ hmem

lemma now_le_get_of_mem_take_succ (xs : List FrameInput)
    (hmono : xs.Pairwise (fun a b => a.now ≤ b.now)) (j : ℕ) (hj : j < xs.length) :
    ∀ f ∈ xs.take (j + 1), f.now ≤ (xs.get ⟨j, hj⟩).now := by
  intro f hf
  rw [List.take_succ, List.getElem?_eq_getElem hj] at hf
  rcases List.mem_append.mp hf with h | h
  · exact now_le_get_of_mem_take xs hmono j hj f h
  · obtain rfl : f = xs.get ⟨j, hj⟩ := by simpa using h
    exact le_rfl

lemma frameTime_mono_adjacent (xs : List FrameInput)
    (hmono : xs.Pairwise (fun a b => a.now ≤ b.now)) (k : ℕ) (hk : k + 1 < xs.length) :
    frameTime xs k ≤ frameTime xs (k + 1) := by
  have h0 : k < xs.length := Nat.lt_of_succ_lt hk
  rw [frameTime_eq_get xs k h0, frameTime_eq_get xs (k + 1) hk]
  exact List.pairwise_iff_get.mp hmono ⟨k, h0⟩ ⟨k + 1, hk⟩ (Nat.lt_succ_self k)

/-- Streak invariant carried along a run: while tracking, the streak started
no later than `t` and the held progress is at most what the clamp formula
allows at time `t`. -/
def trackerInv (cfg : TrackerConfig) (s : TrackerState) (t : ℚ) : Prop :=
  ∀ m, s.phase = .tracking m →
    0 ≤ s.progress ∧ s.startedAt ≤ t ∧ s.progress ≤ clampProgress cfg (t - s.startedAt)

lemma clampProgress_nonneg (cfg : TrackerConfig) (hD : 0 < cfg.requiredStableDuration)
    {x : ℚ} (hx : 0 ≤ x) : 0 ≤ clampProgress cfg x :=
  le_min zero_le_one (div_nonneg hx hD.le)

lemma clampProgress_mono (cfg : TrackerConfig) (hD : 0 < cfg.requiredStableDuration)
    {a b : ℚ} (hab : a ≤ b) : clampProgress cfg a ≤ clampProgress cfg b :=
  min_le_min le_rfl ((div_le_div_iff_of_pos_right hD).mpr hab)

lemma trackerInv_init (cfg : TrackerConfig) (t : ℚ) : trackerInv cfg TrackerState.init t := by
  intro m h
  simp [TrackerState.init] at h

lemma trackerInv_mono (cfg : TrackerConfig) (hD : 0 < cfg.requiredStableDuration)
    (s : TrackerState) {t u : ℚ} (htu : t ≤ u) (hinv : trackerInv cfg s t) :
    trackerInv cfg s u := by
  intro m hm
  obtain ⟨h0, hsa, hcl⟩ := hinv m hm
  exact ⟨h0, hsa.trans htu, hcl.trans (clampProgress_mono cfg hD (by linarith))⟩

lemma trackerIdleStep_inv (cfg : TrackerConfig) (hD : 0 < cfg.requiredStableDuration)
    (dets : List MarkerDetection) (now : ℚ) :
    trackerInv cfg (trackerIdleStep dets now).1 now := by
  unfold trackerIdleStep
  cases pickDetection dets with
  | none => exact trackerInv_init cfg now
  | some d =>
      intro m h
      refine ⟨le_rfl, le_rfl, ?_⟩
      exact clampProgress_nonneg cfg hD (by simp)

lemma trackerStep_inv (cfg : TrackerConfig) (hD : 0 < cfg.requiredStableDuration)
    (s : TrackerState) (t : ℚ) (dets : List MarkerDetection) (now : ℚ)
    (ht : t ≤ now) (hinv : trackerInv cfg s t) :
    trackerInv cfg (trackerStep cfg s dets now).1 now := by
  obtain ⟨ph, pr, mc, sa⟩ := s
  cases ph with
  | idle => exact trackerIdleStep_inv cfg hD dets now
  | cooldown e =>
      by_cases hlt : now < e
      · rw [trackerStep_cooldown_lt cfg _ dets now e rfl hlt]
        intro m h
        simp at h
      · show trackerInv cfg
          ((if now < e then
              ((⟨.cooldown e, pr, mc, sa⟩ : TrackerState),
                ({ progress := 0, triggered := false, markerId := none } : TrackerOutput))
            else trackerIdleStep dets now)).1 now
        rw [if_neg hlt]
        exact trackerIdleStep_inv cfg hD dets now
  | tracking m0 =>
      obtain ⟨h0, hsa, hcl⟩ := hinv m0 rfl
      simp only [trackerStep]
      cases hpd : pickDetection dets with
      | none =>
          unfold trackerMissStep
          by_cases hg : mc + 1 ≤ cfg.graceLimit
          · rw [if_pos (by simpa using hg)]
            intro m h
            replace h : TrackerPhase.tracking m0 = .tracking m := h
            obtain rfl : m0 = m := by simpa using h
            refine ⟨h0, hsa.trans ht, ?_⟩
            exact hcl.trans (clampProgress_mono cfg hD (by linarith))
          · rw [if_neg (by simpa using hg)]
            exact trackerInv_init cfg now
      | some d =>
          by_cases hid : d.id = m0
          · by_cases htr : 1 ≤ clampProgress cfg (now - sa)
            · simp only [hid, htr, if_true, ite_true]
              intro m h
              simp at h
            · simp only [hid, htr, if_true, ite_true, if_false, ite_false, if_neg htr]
              intro m h
              refine ⟨?_, hsa.trans ht, le_rfl⟩
              exact clampProgress_nonneg cfg hD (by linarith)
          · simp only [if_neg hid]
            intro m h
            refine ⟨le_rfl, le_rfl, ?_⟩
            exact clampProgress_nonneg cfg hD (by simp)

lemma trackerExec_inv (cfg : TrackerConfig) (hD : 0 < cfg.requiredStableDuration) :
    ∀ (xs : List FrameInput) (s : TrackerState) (t T : ℚ), trackerInv cfg s t →
      (∀ f ∈ xs, t ≤ f.now ∧ f.now ≤ T) → xs.Pairwise (fun a b => a.now ≤ b.now) →
      t ≤ T → trackerInv cfg (trackerExec cfg s xs) T := by
  intro xs
  induction xs with
  | nil => intro s t T hinv _ _ htT; exact trackerInv_mono cfg hD s htT hinv
  | cons f fs ih =>
      intro s t T hinv hb hp htT
      show trackerInv cfg (trackerExec cfg (trackerStep cfg s f.dets f.now).1 fs) T
      apply ih _ f.now T (trackerStep_inv cfg hD s t f.dets f.now (hb f (by simp)).1 hinv)
      · intro g hg
        exact ⟨(List.pairwise_cons.mp hp).1 g hg, (hb g (by simp [hg])).2⟩
      · exact (List.pairwise_cons.mp hp).2
      · exact (hb f (by simp)).2

lemma trackerExec_init_inv (cfg : TrackerConfig) (hD : 0 < cfg.requiredStableDuration)
    (xs : List FrameInput) (T : ℚ) (hb : ∀ f ∈ xs, f.now ≤ T)
    (hp : xs.Pairwise (fun a b => a.now ≤ b.now)) :
    trackerInv cfg (trackerExec cfg TrackerState.init xs) T := by
  cases xs with
  | nil => exact trackerInv_init cfg T
  | cons f fs =>
      show trackerInv cfg
        (trackerExec cfg (trackerStep cfg TrackerState.init f.dets f.now).1 fs) T
      apply trackerExec_inv cfg hD fs _ f.now T
      · exact trackerStep_inv cfg hD TrackerState.init f.now f.dets f.now le_rfl
          (trackerInv_init cfg f.now)
      · intro g hg
        exact ⟨(List.pairwise_cons.mp hp).1 g hg, hb g (by simp [hg])⟩
      · exact (List.pairwise_cons.mp hp).2
      · exact hb f (by simp)

lemma stateBefore_inv (cfg : TrackerConfig) (hD : 0 < cfg.requiredStableDuration)
    (xs : List FrameInput) (hmono : xs.Pairwise (fun a b => a.now ≤ b.now))
    (k : ℕ) (hk : k < xs.length) :
    trackerInv cfg (stateBefore cfg xs (k + 1)) (frameTime xs k) := by
  unfold stateBefore
  rw [frameTime_eq_get xs k hk]
  apply trackerExec_init_inv cfg hD
  · exact now_le_get_of_mem_take_succ xs hmono k hk
  · exact hmono.sublist (List.take_sublist _ _)

lemma trackerStep_out_progress (cfg : TrackerConfig) (s : TrackerState)
    (dets : List MarkerDetection) (now : ℚ) (m : ℕ)
    (h : (trackerStep cfg s dets now).1.phase = .tracking m) :
    (trackerStep cfg s dets now).2.progress = (trackerStep cfg s dets now).1.progress := by
  obtain ⟨ph, pr, mc, sa⟩ := s
  cases ph with
  | idle =>
      show (trackerIdleStep dets now).2.progress = (trackerIdleStep dets now).1.progress
      unfold trackerIdleStep
      cases pickDetection dets <;> rfl
  | cooldown e =>
      by_cases hlt : now < e
      · rw [trackerStep_cooldown_lt cfg _ dets now e rfl hlt] at h
        simp at h
      · show ((if now < e then
              ((⟨.cooldown e, pr, mc, sa⟩ : TrackerState),
                ({ progress := 0, triggered := false, markerId := none } : TrackerOutput))
            else trackerIdleStep dets now)).2.progress =
          ((if now < e then
              ((⟨.cooldown e, pr, mc, sa⟩ : TrackerState),
                ({ progress := 0, triggered := false, markerId := none } : TrackerOutput))
            else trackerIdleStep dets now)).1.progress
        rw [if_neg hlt]
        unfold trackerIdleStep
        cases pickDetection dets <;> rfl
  | tracking m0 =>
      simp only [trackerStep] at h ⊢
      cases hpd : pickDetection dets with
      | none =>
          rw [hpd] at h
          unfold trackerMissStep at h ⊢
          by_cases hg : mc + 1 ≤ cfg.graceLimit
          · rw [if_pos (by simpa using hg)]
          · rw [if_neg (by simpa using hg)]
            rfl
      | some d =>
          rw [hpd] at h
          by_cases hid : d.id = m0
          · by_cases htr : 1 ≤ clampProgress cfg (now - sa)
            · simp only [hid, htr, if_true, ite_true] at h
              simp at h
            · simp only [hid, htr, if_true, ite_true, if_neg htr]
              rfl
          · simp only [if_neg hid]

lemma trackerStep_progress_mono (cfg : TrackerConfig) (hD : 0 < cfg.requiredStableDuration)
    (s : TrackerState) (m : ℕ) (t : ℚ) (dets : List MarkerDetection) (now : ℚ)
    (hph : s.phase = .tracking m) (hinv : trackerInv cfg s t) (htn : t ≤ now)
    (hph2 : (trackerStep cfg s dets now).1.phase = .tracking m) :
    s.progress ≤ (trackerStep cfg s dets now).1.progress := by
  obtain ⟨h0, hsa, hcl⟩ := hinv m hph
  obtain ⟨ph, pr, mc, sa⟩ := s
  replace hph : ph = .tracking m := hph
  subst hph
  simp only [trackerStep] at hph2 ⊢
  cases hpd : pickDetection dets with
  | none =>
      rw [hpd] at hph2
      unfold trackerMissStep at hph2 ⊢
      by_cases hg : mc + 1 ≤ cfg.graceLimit
      · rw [if_pos (by simpa using hg)]
      · rw [if_neg (by simpa using hg)] at hph2
        simp [TrackerState.init] at hph2
  | some d =>
      rw [hpd] at hph2
      by_cases hid : d.id = m
      · by_cases htr : 1 ≤ clampProgress cfg (now - sa)
        · simp only [hid, htr, if_true, ite_true] at hph2
          simp at hph2
        · simp only [hid, htr, if_true, ite_true, if_neg htr]
          simp only [trackerInv] at *
          exact hcl.trans (clampProgress_mono cfg hD (by simp at hsa ⊢; linarith))
      · simp only [if_neg hid] at hph2
        simp at hph2
        exact absurd hph2 hid

lemma trackerStep_miss_reset (cfg : TrackerConfig) (s : TrackerState) (m : ℕ)
    (dets : List MarkerDetection) (now : ℚ)
    (hph : s.phase = .tracking m) (hpd : pickDetection dets = none)
    (hg : cfg.graceLimit < s.missedCount + 1) :
    trackerStep cfg s dets now =
      (TrackerState.init, { progress := 0, triggered := false, markerId := none }) := by
  obtain ⟨ph, pr, mc, sa⟩ := s
  replace hph : ph = .tracking m := hph
  subst hph
  replace hg : cfg.graceLimit < mc + 1 := hg
  simp only [trackerStep, hpd]
  unfold trackerMissStep
  rw [if_neg (by simpa using not_le.mpr hg)]

/-- C1: along any time-monotone detection sequence, `triggered` is published
at most once per streak: two triggers are always separated by at least the
cool-down interval; moreover a triggering step transitions the tracker to
`COOLDOWN` ending at `now + cooldownInterval`, and an expired cool-down with
no detection returns the tracker to the empty `IDLE` state. -/
theorem tracker_triggered_once_per_streak (cfg : TrackerConfig) (xs : List FrameInput)
    (hmono : xs.Pairwise (fun a b => a.now ≤ b.now)) (i j : ℕ) (hij : i < j)
    (hj : j < xs.length)
    (hti : (runOut cfg xs i).triggered = true)
    (htj : (runOut cfg xs j).triggered = true) :
    frameTime xs i + cfg.cooldownInterval ≤ frameTime xs j
  ∧ (∀ (s : TrackerState) (dets : List MarkerDetection) (now : ℚ),
        (trackerStep cfg s dets now).2.triggered = true →
        (trackerStep cfg s dets now).1.phase = .cooldown (now + cfg.cooldownInterval))
  ∧ (∀ (s : TrackerState) (e : ℚ) (dets : List MarkerDetection) (now : ℚ),
        s.phase = .cooldown e → e ≤ now → pickDetection dets = none →
        trackerStep cfg s dets now =
          (TrackerState.init, { progress := 0, triggered := false, markerId := none })) := by
  have hi : i < xs.length := lt_trans hij hj
  refine ⟨?_, fun s dets now h => trackerStep_triggered cfg s dets now h, ?_⟩
  · by_contra hcon
    push_neg at hcon
    have hstate : (stateBefore cfg xs (i + 1)).phase
        = .cooldown (frameTime xs i + cfg.cooldownInterval) := by
      rw [stateBefore_succ cfg xs i hi]
      exact trackerStep_triggered cfg _ _ _ (by rw [← runOut_eq cfg xs i hi]; exact hti)
    have htake : xs.take (i + 1) ++ (xs.take j).drop (i + 1) = xs.take j := by
      have h := List.take_append_drop (i + 1) (xs.take j)
      rwa [List.take_take, min_eq_left (by omega)] at h
    have hmid : ∀ f ∈ (xs.take j).drop (i + 1),
        f.now < frameTime xs i + cfg.cooldownInterval := by
      intro f hf
      have h1 : f.now ≤ (xs.get ⟨j, hj⟩).now :=
        now_le_get_of_mem_take xs hmono j hj f (List.drop_subset _ _ hf)
      rw [← frameTime_eq_get xs j hj] at h1
      exact lt_of_le_of_lt h1 hcon
    have hsame : stateBefore cfg xs j = stateBefore cfg xs (i + 1) := by
      unfold stateBefore
      conv_lhs => rw [← htake]
      rw [trackerExec_append]
      exact trackerExec_cooldown cfg _ _ _ hstate hmid
    have hfalse : (runOut cfg xs j).triggered = false := by
      rw [runOut_eq cfg xs j hj, hsame,
        trackerStep_cooldown_lt cfg _ _ _ _ hstate hcon]
    rw [hfalse] at htj
    exact absurd htj (by simp)
  · intro s e dets now hp he hpd
    obtain ⟨ph, pr, mc, sa⟩ := s
    replace hp : ph = .cooldown e := hp
    subst hp
    simp only [trackerStep]
    rw [if_neg (not_lt.mpr he)]
    unfold trackerIdleStep
    rw [hpd]

/-- C2: along any time-monotone detection sequence, while the tracked marker
survives a step (the phase stays `TRACKING m`, i.e. the id keeps being
detected with at most `graceLimit` consecutive misses), the published
progress does not decrease; and on the first frame on which the consecutive
misses exceed the grace limit the published progress is 0 and the tracker
breaks to `IDLE`. -/
theorem tracker_progress_monotone_within_grace (cfg : TrackerConfig)
    (hD : 0 < cfg.requiredStableDuration)
    (xs : List FrameInput) (hmono : xs.Pairwise (fun a b => a.now ≤ b.now))
    (k m : ℕ) (hk : k + 1 < xs.length)
    (h1 : (stateBefore cfg xs (k + 1)).phase = .tracking m)
    (h2 : (stateBefore cfg xs (k + 2)).phase = .tracking m) :
    (runOut cfg xs k).progress ≤ (runOut cfg xs (k + 1)).progress
  ∧ (∀ (kk mm : ℕ), kk < xs.length → (stateBefore cfg xs kk).phase = .tracking mm →
      pickDetection (frameDets xs kk) = none →
      cfg.graceLimit < (stateBefore cfg xs kk).missedCount + 1 →
      (runOut cfg xs kk).progress = 0 ∧ (stateBefore cfg xs (kk + 1)).phase = .idle) := by
  have hk0 : k < xs.length := Nat.lt_of_succ_lt hk
  constructor
  · have e1 : stateBefore cfg xs (k + 1) =
        (trackerStep cfg (stateBefore cfg xs k) (frameDets xs k) (frameTime xs k)).1 :=
      stateBefore_succ cfg xs k hk0
    have e2 : stateBefore cfg xs (k + 2) =
        (trackerStep cfg (stateBefore cfg xs (k + 1))
          (frameDets xs (k + 1)) (frameTime xs (k + 1))).1 :=
      stateBefore_succ cfg xs (k + 1) hk
    have ho1 : (runOut cfg xs k).progress = (stateBefore cfg xs (k + 1)).progress := by
      rw [runOut_eq cfg xs k hk0, e1]
      exact trackerStep_out_progress cfg _ _ _ m (by rw [← e1]; exact h1)
    have ho2 : (runOut cfg xs (k + 1)).progress = (stateBefore cfg xs (k + 2)).progress := by
      rw [runOut_eq cfg xs (k + 1) hk, e2]
      exact trackerStep_out_progress cfg _ _ _ m (by rw [← e2]; exact h2)
    rw [ho1, ho2, e2]
    exact trackerStep_progress_mono cfg hD _ m (frameTime xs k) _ _
      h1 (stateBefore_inv cfg hD xs hmono k hk0)
      (frameTime_mono_adjacent xs hmono k hk)
      (by rw [← e2]; exact h2)
  · intro kk mm hkk hph hpd hg
    have e3 := stateBefore_succ cfg xs kk hkk
    have hstep := trackerStep_miss_reset cfg (stateBefore cfg xs kk) mm
      (frameDets xs kk) (frameTime xs kk) hph hpd hg
    constructor
    · rw [runOut_eq cfg xs kk hkk, hstep]
    · rw [e3, hstep]
      rfl

/-- Concrete detection used by the tracker witnesses. -/
def witnessDet : MarkerDetection := { id := 5, corners := [], confidence := 1 }

/-- Tracker configuration used by the witnesses: 1 s stable duration,
grace 3, 2 s cool-down. -/
def witnessCfg : TrackerConfig :=
  { requiredStableDuration := 1, graceLimit := 3, cooldownInterval := 2 }

/-- Witness trace with two triggers (at frames 1 and 3). -/
def witnessFramesA : List FrameInput :=
  [ { dets := [witnessDet], now := 0 }, { dets := [witnessDet], now := 1 },
    { dets := [witnessDet], now := 3 }, { dets := [witnessDet], now := 4 } ]

theorem tracker_triggered_once_per_streak_witness :
    witnessFramesA.Pairwise (fun a b => a.now ≤ b.now)
  ∧ (1 : ℕ) < 3 ∧ 3 < witnessFramesA.length
  ∧ (runOut witnessCfg witnessFramesA 1).triggered = true
  ∧ (runOut witnessCfg witnessFramesA 3).triggered = true
  ∧ frameTime witnessFramesA 1 + witnessCfg.cooldownInterval ≤ frameTime witnessFramesA 3 := by
  have hmono : witnessFramesA.Pairwise (fun a b => a.now ≤ b.now) := by
    norm_num [witnessFramesA, List.pairwise_cons]
  have hlen : 3 < witnessFramesA.length := by norm_num [witnessFramesA]
  have ht1 : (runOut witnessCfg witnessFramesA 1).triggered = true := by
    norm_num [runOut, trackerRun, trackerStep, trackerIdleStep, trackerMissStep,
      pickDetection, clampProgress, TrackerState.init, witnessCfg, witnessFramesA,
      witnessDet, List.getD, min_def]
  have ht3 : (runOut witnessCfg witnessFramesA 3).triggered = true := by
    norm_num [runOut, trackerRun, trackerStep, trackerIdleStep, trackerMissStep,
      pickDetection, clampProgress, TrackerState.init, witnessCfg, witnessFramesA,
      witnessDet, List.getD, min_def]
  exact ⟨hmono, by norm_num, hlen, ht1, ht3,
    (tracker_triggered_once_per_streak witnessCfg witnessFramesA hmono 1 3
      (by norm_num) hlen ht1 ht3).1⟩

/-- Witness trace for the progress claim: detection at 0 s and 0.5 s
(progress grows to 1/2), then four consecutive missed frames (grace 3),
breaking the streak on the last one. -/
def witnessFramesB : List FrameInput :=
  [ { dets := [witnessDet], now := 0 }, { dets := [witnessDet], now := 1/2 },
    { dets := [], now := 1 }, { dets := [], now := 2 },
    { dets := [], now := 3 }, { dets := [], now := 4 } ]

theorem tracker_progress_monotone_within_grace_witness :
    (0 : ℚ) < witnessCfg.requiredStableDuration
  ∧ witnessFramesB.Pairwise (fun a b => a.now ≤ b.now)
  ∧ 0 + 1 < witnessFramesB.length
  ∧ (stateBefore witnessCfg witnessFramesB 1).phase = .tracking 5
  ∧ (stateBefore witnessCfg witnessFramesB 2).phase = .tracking 5
  ∧ (runOut witnessCfg witnessFramesB 0).progress ≤ (runOut witnessCfg witnessFramesB 1).progress
  ∧ ((5 : ℕ) < witnessFramesB.length
      ∧ (stateBefore witnessCfg witnessFramesB 5).phase = .tracking 5
      ∧ pickDetection (frameDets witnessFramesB 5) = none
      ∧ witnessCfg.graceLimit < (stateBefore witnessCfg witnessFramesB 5).missedCount + 1
      ∧ (runOut witnessCfg witnessFramesB 5).progress = 0
      ∧ (stateBefore witnessCfg witnessFramesB 6).phase = .idle) := by
  have hD : (0 : ℚ) < witnessCfg.requiredStableDuration := by norm_num [witnessCfg]
  have hmono : witnessFramesB.Pairwise (fun a b => a.now ≤ b.now) := by
    norm_num [witnessFramesB, List.pairwise_cons]
  have hlen : 0 + 1 < witnessFramesB.length := by norm_num [witnessFramesB]
  have h1 : (stateBefore witnessCfg witnessFramesB 1).phase = .tracking 5 := by
    norm_num [stateBefore, trackerExec, trackerStep, trackerIdleStep, trackerMissStep,
      pickDetection, clampProgress, TrackerState.init, witnessCfg, witnessFramesB,
      witnessDet, min_def]
  have h2 : (stateBefore witnessCfg witnessFramesB 2).phase = .tracking 5 := by
    norm_num [stateBefore, trackerExec, trackerStep, trackerIdleStep, trackerMissStep,
      pickDetection, clampProgress, TrackerState.init, witnessCfg, witnessFramesB,
      witnessDet, min_def]
  have h5 : (stateBefore witnessCfg witnessFramesB 5).phase = .tracking 5 := by
    norm_num [stateBefore, trackerExec, trackerStep, trackerIdleStep, trackerMissStep,
      pickDetection, clampProgress, TrackerState.init, witnessCfg, witnessFramesB,
      witnessDet, min_def]
  have hm5 : witnessCfg.graceLimit < (stateBefore witnessCfg witnessFramesB 5).missedCount + 1 := by
    norm_num [stateBefore, trackerExec, trackerStep, trackerIdleStep, trackerMissStep,
      pickDetection, clampProgress, TrackerState.init, witnessCfg, witnessFramesB,
      witnessDet, min_def]
  have hpd5 : pickDetection (frameDets witnessFramesB 5) = none := by
    norm_num [pickDetection, frameDets, witnessFramesB, List.getD]
  have hmain := tracker_progress_monotone_within_grace witnessCfg hD witnessFramesB hmono
    0 5 hlen h1 h2
  refine ⟨hD, hmono, hlen, h1, h2, hmain.1,
    by norm_num [witnessFramesB], h5, hpd5, hm5, ?_, ?_⟩
  · exact (hmain.2 5 5 (by norm_num [witnessFramesB]) h5 hpd5 hm5).1
  · exact (hmain.2 5 5 (by norm_num [witnessFramesB]) h5 hpd5 hm5).2

/-- C3: ClassificationResolver is the pure lookup-with-default
`mapping.get(detectedId, "Unclassified")`: an id absent from the mapping
resolves to exactly "Unclassified"; resolution is the stated pure function
of the mapping and id, and classifying while storing a capture leaves the
mapping store untouched. -/
theorem resolveSubject_pure_default (mapping : List (ℕ × String)) (detectedId : ℕ)
    (habs : mapping.lookup detectedId = none) :
    resolveSubject mapping detectedId = "Unclassified"
  ∧ (∀ (mp : List (ℕ × String)) (i : ℕ),
      resolveSubject mp i = (mp.lookup i).getD "Unclassified")
  ∧ (∀ (st : SystemState) (fn o c : String) (t : ℚ) (di : Option ℕ) (g col : Bool),
      (storeCapture st fn o c t di g col).mapping = st.mapping) := by
  refine ⟨?_, fun mp i => rfl, fun st fn o c t di g col => rfl⟩
  simp [resolveSubject, habs]

theorem resolveSubject_pure_default_witness :
    ([((1 : ℕ), "Math")].lookup (2 : ℕ) = none)
  ∧ resolveSubject [((1 : ℕ), "Math")] 2 = "Unclassified" :=
  ⟨rfl, (resolveSubject_pure_default [((1 : ℕ), "Math")] 2 rfl).1⟩

/-- C4: registering a markerId → subject mapping afterwards never rewrites
persisted capture records: the stored record list is unchanged, so every
previously stored record survives with all its fields (subject included)
intact — a previously unmapped id is not reclassified retroactively. -/
theorem registerMapping_preserves_records (st : SystemState) (id : ℕ) (subject : String)
    (r : CaptureRecord) (hr : r ∈ st.records) :
    (registerMapping st id subject).records = st.records
  ∧ r ∈ (registerMapping st id subject).records :=
  ⟨rfl, hr⟩

/-- A concrete record stored before its id was mapped. -/
def witnessRecord : CaptureRecord :=
  { filename := "a.jpg", filepathOriginal := "orig/a.jpg", filepathCorrected := "corr/a.jpg",
    createdAt := 0, subject := "Unclassified", detectedId := some 7,
    geometricCorrectionApplied := true, colorCorrectionApplied := false }

theorem registerMapping_preserves_records_witness :
    witnessRecord ∈ (SystemState.mk [] [witnessRecord]).records
  ∧ (registerMapping (SystemState.mk [] [witnessRecord]) 7 "Math").records
      = (SystemState.mk [] [witnessRecord]).records
  ∧ witnessRecord ∈ (registerMapping (SystemState.mk [] [witnessRecord]) 7 "Math").records := by
  have h : witnessRecord ∈ (SystemState.mk [] [witnessRecord]).records :=
    List.mem_singleton.mpr rfl
  exact ⟨h, (registerMapping_preserves_records _ 7 "Math" witnessRecord h).1,
    (registerMapping_preserves_records _ 7 "Math" witnessRecord h).2⟩

lemma onStatusMessage_not_null (st : CaptureStatusState) (d : Json) (hd : d ≠ .null) :
    onStatusMessage st (some d) =
      { captureProgress := jsOrDefault (d.getField "progress") (.num 0)
        captureTriggered := jsTruthy (d.getField "triggered") } := by
  cases d <;> first | exact absurd rfl hd | rfl

/-- C5 counterexample: the line `null` parses as JSON and its `progress`
field is absent, yet the handler does not default the displayed progress to
0 (nor the triggered flag to the truthiness of the absent `triggered`
field): `data.progress` throws a TypeError inside the `try`, the `catch`
swallows it, and the displayed state (here progress 5, triggered true) is
left unchanged. -/
theorem onStatusMessage_null_counterexample :
    Json.null.getField "progress" = none
  ∧ onStatusMessage ⟨.num 5, true⟩ (some .null) = ⟨.num 5, true⟩
  ∧ (onStatusMessage ⟨.num 5, true⟩ (some .null)).captureProgress ≠ .num 0
  ∧ (onStatusMessage ⟨.num 5, true⟩ (some .null)).captureTriggered
      ≠ jsTruthy (Json.null.getField "triggered") := by
  refine ⟨rfl, rfl, ?_, ?_⟩
  · intro h
    exact absurd (Json.num.inj h) (by norm_num)
  · intro h
    simp [onStatusMessage, jsTruthy, Json.getField] at h

/-- C5 (amended): the capture-status event handler leaves the displayed
state unchanged on a malformed (unparseable) line, and likewise on the
parsed line `null` — in both cases the error is swallowed inside the
handler, never escaping it; for every other parsed value it takes progress
from the `progress` field (0 when the field is absent) and triggered from
the truthiness of the `triggered` field. -/
theorem onStatusMessage_spec (st : CaptureStatusState) (d : Json) (q : ℚ)
    (hq : d.getField "progress" = some (.num q)) :
    onStatusMessage st none = st
  ∧ onStatusMessage st (some .null) = st
  ∧ (onStatusMessage st (some d)).captureProgress = .num q
  ∧ (∀ (st2 : CaptureStatusState) (d2 : Json), d2 ≠ .null →
      d2.getField "progress" = none →
      (onStatusMessage st2 (some d2)).captureProgress = .num 0)
  ∧ (∀ (st2 : CaptureStatusState) (d2 : Json), d2 ≠ .null →
      (onStatusMessage st2 (some d2)).captureTriggered
        = jsTruthy (d2.getField "triggered")) := by
  have hd : d ≠ .null := by
    intro h
    subst h
    simp [Json.getField] at hq
  refine ⟨rfl, rfl, ?_, ?_, ?_⟩
  · rw [onStatusMessage_not_null st d hd]
    simp only [jsOrDefault, hq]
    by_cases h0 : q = 0
    · subst h0; simp [Json.truthy]
    · simp [Json.truthy, h0]
  · intro st2 d2 hd2 h
    rw [onStatusMessage_not_null st2 d2 hd2]
    simp [jsOrDefault, h]
  · intro st2 d2 hd2
    rw [onStatusMessage_not_null st2 d2 hd2]

/-- Concrete client state and parsed status message for the witness. -/
def witnessStatusState : CaptureStatusState :=
  { captureProgress := .num 0, captureTriggered := false }

/-- See `witnessStatusState`. -/
def witnessStatusMsg : Json := .obj [("progress", .num 1), ("triggered", .bool true)]

theorem onStatusMessage_spec_witness :
    witnessStatusMsg.getField "progress" = some (.num 1)
  ∧ onStatusMessage witnessStatusState none = witnessStatusState
  ∧ onStatusMessage witnessStatusState (some .null) = witnessStatusState
  ∧ (onStatusMessage witnessStatusState (some witnessStatusMsg)).captureProgress = .num 1 := by
  have hq : witnessStatusMsg.getField "progress" = some (.num 1) := rfl
  exact ⟨hq, (onStatusMessage_spec witnessStatusState witnessStatusMsg 1 hq).1,
    (onStatusMessage_spec witnessStatusState witnessStatusMsg 1 hq).2.1,
    (onStatusMessage_spec witnessStatusState witnessStatusMsg 1 hq).2.2.1⟩

/-- C7: the automatic stream-retry loop is NOT bounded by 5 attempts.  A
retry is indeed scheduled only when `errorCount < 5`, and a successful load
or a refresh resets the count to 0 — but the scheduled retry itself runs
`refreshStream`, which resets `errorCount` to 0, so every consecutive
failure cycle schedules another retry: `retriesScheduled 0 n = n` for every
`n` (in particular a 6th consecutive error still schedules a 6th retry),
the error count never leaves {0, 1} on the automatic path, and the
`errorCount >= 5` offline banner is never reached by it. -/
theorem streamRetry_unbounded :
    retriesScheduled 0 6 = 6
  ∧ (∀ n, retriesScheduled 0 n = n)
  ∧ (∀ n, errorCountAfter 0 n = 0)
  ∧ (∀ n, offlineShown (errorCountAfter 0 n) = false)
  ∧ (∀ c, (handleStreamError c).2 = true ↔ c < 5)
  ∧ refreshStream 3 = 0 ∧ handleStreamLoad 3 = 0 := by
  have hcycle : failureCycle 0 = (0, true) := rfl
  have hafter : ∀ n, errorCountAfter 0 n = 0 := by
    intro n
    induction n with
    | zero => rfl
    | succ k ih => simpa [errorCountAfter, hcycle] using ih
  have hretry : ∀ n, retriesScheduled 0 n = n := by
    intro n
    induction n with
    | zero => rfl
    | succ k ih => simp [retriesScheduled, hcycle, ih, Nat.add_comm]
  refine ⟨hretry 6, hretry, hafter, fun n => by simp [hafter n, offlineShown], ?_, rfl, rfl⟩
  intro c
  unfold handleStreamError
  split_ifs with h <;> simp [h]

/-- C8: the opaque cache-busting token is semantically ignored by the
frame-stream endpoint: for every frame-source state, any two query strings
— in particular any two client stream keys `?t=<k>` — yield identical
stream content. -/
theorem streamEndpoint_ignores_token (src : FrameSourceState)
    (q1 q2 : List (String × String)) (k1 k2 : ℕ) :
    streamEndpoint src q1 = streamEndpoint src q2
  ∧ streamEndpoint src (clientStreamQuery k1) = streamEndpoint src (clientStreamQuery k2) :=
  ⟨rfl, rfl⟩

/-- C9: the capture HUD renders nothing exactly when progress ≤ 0 and
triggered is false; any rendered HUD has dash offset equal to the circle
circumference `c` times `(1 - progress)`, and carries the triggered flag. -/
theorem captureHud_spec (c p : ℚ) (t : Bool) (v : HudView)
    (hv : captureHud c p t = some v) :
    (∀ (c2 p2 : ℚ) (t2 : Bool), captureHud c2 p2 t2 = none ↔ (p2 ≤ 0 ∧ t2 = false))
  ∧ v.dashOffset = c * (1 - p) ∧ v.triggered = t := by
  constructor
  · intro c2 p2 t2
    unfold captureHud
    split_ifs with h
    · simp [h]
    · simp [h]
  · unfold captureHud at hv
    split_ifs at hv with h
    have hveq : v = { dashOffset := c - p * c, triggered := t } :=
      (Option.some.inj hv).symm
    subst hveq
    exact ⟨by show c - p * c = c * (1 - p); ring, rfl⟩

theorem captureHud_spec_witness :
    captureHud 7 1 false = some { dashOffset := 0, triggered := false }
  ∧ ({ dashOffset := 0, triggered := false } : HudView).dashOffset = 7 * (1 - 1)
  ∧ ({ dashOffset := 0, triggered := false } : HudView).triggered = false := by
  have hv : captureHud 7 1 false = some { dashOffset := 0, triggered := false } := by
    norm_num [captureHud]
  exact ⟨hv, (captureHud_spec 7 1 false _ hv).2.1, (captureHud_spec 7 1 false _ hv).2.2⟩

lemma asPoints_map (l : List (ℚ × ℚ)) :
    asPoints (l.map (fun q => Json.arr [.num q.1, .num q.2])) = some l := by
  induction l with
  | nil => rfl
  | cons p ps ih =>
      show (match Json.asPoint (.arr [.num p.1, .num p.2]),
          asPoints (ps.map (fun q => Json.arr [.num q.1, .num q.2])) with
        | some p, some ps => some (p :: ps)
        | _, _ => none) = some (p :: ps)
      rw [ih]
      rfl

lemma detectBox_pointsBlock (p : ℚ × ℚ) (rest : List (ℚ × ℚ)) (t : String) :
    detectBox (pointsBlock p rest t) = some
      { x := listMin p.1 (rest.map Prod.fst), y := listMin p.2 (rest.map Prod.snd)
      , w := listMax p.1 (rest.map Prod.fst) - listMin p.1 (rest.map Prod.fst)
      , h := listMax p.2 (rest.map Prod.snd) - listMin p.2 (rest.map Prod.snd)
      , text := if t = "" then "" else t } := by
  have h1 : (pointsBlock p rest t).getField "points"
      = some (.arr ((p :: rest).map (fun q => Json.arr [.num q.1, .num q.2]))) := rfl
  have h2 : (pointsBlock p rest t).getField "content" = none := rfl
  have h3 : (pointsBlock p rest t).getField "text" = some (.str t) := rfl
  simp only [detectBox, h1, asPoints_map, h2, h3]
  simp [jsStringOr]

lemma detectBox_boxBlock (bx yy ww hh : ℚ) (t : String) :
    detectBox (.obj [("box", .arr [.num bx, .num yy, .num ww, .num hh]), ("text", .str t)])
      = some { x := bx, y := yy, w := ww, h := hh, text := if t = "" then "" else t } := by
  have g1 : (Json.obj [("box", .arr [.num bx, .num yy, .num ww, .num hh]),
      ("text", .str t)]).getField "points" = none := rfl
  have g2 : (Json.obj [("box", .arr [.num bx, .num yy, .num ww, .num hh]),
      ("text", .str t)]).getField "box"
      = some (.arr [.num bx, .num yy, .num ww, .num hh]) := rfl
  have g3 : (Json.obj [("box", .arr [.num bx, .num yy, .num ww, .num hh]),
      ("text", .str t)]).getField "text" = some (.str t) := rfl
  have g4 : (Json.obj [("box", .arr [.num bx, .num yy, .num ww, .num hh]),
      ("text", .str t)]).getField "content" = none := rfl
  simp only [detectBox, g1, g2, g3, g4]
  simp [jsStringOr]
lemma detectBox_points_eq_box (p : ℚ × ℚ) (rest : List (ℚ × ℚ)) (t : String) :
    detectBox (pointsBlock p rest t) = detectBox (boxBlockOfPoints p rest t) := by
  rw [detectBox_pointsBlock]
  rw [show boxBlockOfPoints p rest t
      = Json.obj [("box", .arr
          [ .num (listMin p.1 (rest.map Prod.fst))
          , .num (listMin p.2 (rest.map Prod.snd))
          , .num (listMax p.1 (rest.map Prod.fst) - listMin p.1 (rest.map Prod.fst))
          , .num (listMax p.2 (rest.map Prod.snd) - listMin p.2 (rest.map Prod.snd))]),
        ("text", .str t)] from rfl]
  rw [detectBox_boxBlock]

/-- C6: detection/OCR payload normalisation is observationally canonical:
the rendered overlay boxes are identical for a bare block array and for the
`{blocks: [...]}`, `{words: [...]}`, `{results: [...]}` wrappers of the same
array, and identical for a points-polygon block versus the equivalent
`{box, text}` block (its bounding box in `[x, y, w, h]` form). -/
theorem renderOverlays_canonical (sz : ImgSize) (xs : List Json)
    (p : ℚ × ℚ) (rest : List (ℚ × ℚ)) (t : String) :
    renderOverlays (some sz) (.arr xs) = renderOverlays (some sz) (.obj [("blocks", .arr xs)])
  ∧ renderOverlays (some sz) (.arr xs) = renderOverlays (some sz) (.obj [("words", .arr xs)])
  ∧ renderOverlays (some sz) (.arr xs) = renderOverlays (some sz) (.obj [("results", .arr xs)])
  ∧ parseBlock (pointsBlock p rest t) = parseBlock (boxBlockOfPoints p rest t)
  ∧ renderOverlays (some sz) (.arr [pointsBlock p rest t])
      = renderOverlays (some sz) (.arr [boxBlockOfPoints p rest t]) := by
  have hpb : parseBlock (pointsBlock p rest t) = parseBlock (boxBlockOfPoints p rest t) := by
    unfold parseBlock
    rw [detectBox_points_eq_box]
  refine ⟨rfl, rfl, rfl, hpb, ?_⟩
  show List.filterMap (fun b => (parseBlock b).map (scaleBox sz)) [pointsBlock p rest t]
      = List.filterMap (fun b => (parseBlock b).map (scaleBox sz)) [boxBlockOfPoints p rest t]
  simp only [List.filterMap, hpb]

lemma le_foldl_max (l : List ℕ) : ∀ a : ℕ, a ≤ l.foldl max a ∧ ∀ x ∈ l, x ≤ l.foldl max a := by
  induction l with
  | nil => intro a; exact ⟨le_rfl, by simp⟩
  | cons y ys ih =>
      intro a
      constructor
      · exact le_trans (le_max_left a y) (ih (max a y)).1
      · intro x hx
        rcases List.mem_cons.mp hx with rfl | hx
        · exact le_trans (le_max_right a x) (ih (max a x)).1
        · exact (ih (max a y)).2 x hx

lemma digitChar_isDigit {d : ℕ} (h : d < 10) : (Nat.digitChar d).isDigit = true := by
  interval_cases d <;> decide

lemma digitVal_digitChar {d : ℕ} (h : d < 10) : digitVal (Nat.digitChar d) = d := by
  interval_cases d <;> decide

lemma takeWhile_eq_self_of_all {α : Type} (p : α → Bool) :
    ∀ l : List α, (∀ x ∈ l, p x = true) → l.takeWhile p = l := by
  intro l
  induction l with
  | nil => intro _; rfl
  | cons x xs ih =>
      intro h
      rw [List.takeWhile_cons, if_pos (h x (by simp))]
      rw [ih (fun y hy => h y (by simp [hy]))]

lemma foldl_digitVal_eq_ofDigits :
    ∀ (ds : List ℕ) (a : ℕ), (∀ d ∈ ds, d < 10) →
      ((ds.reverse.map Nat.digitChar).foldl (fun acc c => 10 * acc + digitVal c) a)
        = a * 10 ^ ds.length + Nat.ofDigits 10 ds := by
  intro ds
  induction ds with
  | nil => intro a _; simp [Nat.ofDigits]
  | cons d tail ih =>
      intro a h
      rw [List.reverse_cons, List.map_append, List.foldl_append]
      simp only [List.map_cons, List.map_nil, List.foldl_cons, List.foldl_nil]
      rw [ih a (fun x hx => h x (by simp [hx]))]
      rw [digitVal_digitChar (h d (by simp))]
      rw [Nat.ofDigits_cons, List.length_cons]
      ring

lemma parseIntNat_natRepr (n : ℕ) : parseIntNat (natRepr n) = some n := by
  by_cases h0 : n = 0
  · subst h0; rfl
  · unfold natRepr
    rw [if_neg h0]
    have hall : ∀ c ∈ (Nat.digits 10 n).reverse.map Nat.digitChar, Char.isDigit c = true := by
      intro c hc
      simp only [List.mem_map, List.mem_reverse] at hc
      obtain ⟨d, hd, rfl⟩ := hc
      exact digitChar_isDigit (Nat.digits_lt_base (by norm_num) hd)
    have hne : (Nat.digits 10 n).reverse.map Nat.digitChar ≠ [] := by
      intro hcon
      have : Nat.digits 10 n = [] := by simpa using hcon
      exact (Nat.digits_ne_nil_iff_ne_zero.mpr h0) this
    show (if (((
        ((Nat.digits 10 n).reverse.map Nat.digitChar).asString.toList).takeWhile
          Char.isDigit).isEmpty) then none
      else some ((((
        ((Nat.digits 10 n).reverse.map Nat.digitChar).asString.toList).takeWhile
          Char.isDigit)).foldl (fun acc c => 10 * acc + digitVal c) 0)) = some n
    rw [show (((Nat.digits 10 n).reverse.map Nat.digitChar).asString).toList
        = (Nat.digits 10 n).reverse.map Nat.digitChar from rfl]
    rw [takeWhile_eq_self_of_all Char.isDigit _ hall]
    rw [if_neg (by simpa [List.isEmpty_iff] using hne)]
    rw [foldl_digitVal_eq_ofDigits (Nat.digits 10 n) 0
      (fun d hd => Nat.digits_lt_base (by norm_num) hd)]
    rw [Nat.ofDigits_digits]
    simp

/-- C10: `addMapping` picks `nextId = Math.max(0, ...parsed keys) + 1`; when
every existing key parses as a non-negative integer, the parsed value of
every existing key is strictly below `nextId`, the decimal string of
`nextId` differs from every existing key, and the add appends a fresh row —
it never overwrites an existing mapping entry. -/
theorem addMapping_fresh_id (m : List (String × String))
    (h : ∀ kv ∈ m, (parseIntNat kv.1).isSome = true) :
    nextIdOf m = (m.map (fun kv => jsParseIntOr0 kv.1)).foldl max 0 + 1
  ∧ (∀ kv ∈ m, ∀ v, parseIntNat kv.1 = some v → v < nextIdOf m)
  ∧ (∀ kv ∈ m, kv.1 ≠ natRepr (nextIdOf m))
  ∧ addMapping m = m ++ [(natRepr (nextIdOf m), "New Subject")] := by
  have hlt : ∀ kv ∈ m, ∀ v, parseIntNat kv.1 = some v → v < nextIdOf m := by
    intro kv hkv v hv
    have hmem : jsParseIntOr0 kv.1 ∈ m.map (fun kv => jsParseIntOr0 kv.1) :=
      List.mem_map_of_mem _ hkv
    have hle := (le_foldl_max (m.map (fun kv => jsParseIntOr0 kv.1)) 0).2 _ hmem
    have hval : jsParseIntOr0 kv.1 = v := by simp [jsParseIntOr0, hv]
    unfold nextIdOf
    omega
  have hne : ∀ kv ∈ m, kv.1 ≠ natRepr (nextIdOf m) := by
    intro kv hkv heq
    obtain ⟨v, hv⟩ := Option.isSome_iff_exists.mp (h kv hkv)
    have h1 := hlt kv hkv v hv
    rw [heq, parseIntNat_natRepr] at hv
    have : nextIdOf m = v := Option.some.inj hv
    omega
  refine ⟨rfl, hlt, hne, ?_⟩
  unfold addMapping updateMapping
  rw [if_neg ?hno]
  case hno =>
    simp only [List.any_eq_true, decide_eq_true_eq, not_exists]
    intro kv
    rw [not_and]
    intro hkv
    exact hne kv hkv

/-- Concrete mappings object for the `addMapping` witness. -/
def witnessMappings : List (String × String) := [("1", "Math"), ("007", "Science")]

theorem addMapping_fresh_id_witness :
    (∀ kv ∈ witnessMappings, (parseIntNat kv.1).isSome = true)
  ∧ addMapping witnessMappings
      = witnessMappings ++ [(natRepr (nextIdOf witnessMappings), "New Subject")] := by
  have h : ∀ kv ∈ witnessMappings, (parseIntNat kv.1).isSome = true := by decide
  exact ⟨h, (addMapping_fresh_id witnessMappings h).2.2.2⟩
